import Mathlib

/-!
Verification of the `fleeting` repository: a shallow embedding of the
data model and operations of the program (translated from the Rust sources),
together with theorems settling the specification claims.

Sources embedded here: `src/worker.rs`, `src/docker_context.rs`,
`src/eventually.rs`, `src/steps.rs`, `src/cli.rs`, `src/main.rs`.
-/

set_option maxHeartbeats 1000000
set_option maxRecDepth 100000

namespace Fleeting

/-! ## Constants (`src/worker.rs` lines 29-30), in seconds -/

/-- `const KEEPALIVE_INTERVAL: Duration = Duration::from_secs(5)` -/
def KEEPALIVE_INTERVAL : Nat := 5

/-- `const KEEPALIVE_TIMEOUT: Duration = Duration::from_secs(15)` -/
def KEEPALIVE_TIMEOUT : Nat := 15

/-! ## Bootstrap-token (OTP) validation (`src/worker.rs` lines 65, 124-129)

The generated OTP is a 20-character alphanumeric string
(`rand::thread_rng().sample_iter(&Alphanumeric).take(20)`); validation
reads `/fleeting/otp`, trims it (`str::trim`) and compares with the
generated token.  Strings are modelled as `List Char`. -/

/-- Support of the `Alphanumeric` sampler and the `take(20)`: a possible
generated OTP is a 20-character alphanumeric string. -/
def isOtpSample (l : List Char) : Prop := l.length = 20 ∧ ∀ c ∈ l, c.isAlphanum = true

/-- Rust `str::trim`: remove leading and trailing whitespace. -/
def rustTrim (l : List Char) : List Char :=
  List.rdropWhile (fun c => c.isWhitespace) (l.dropWhile (fun c => c.isWhitespace))

/-- The error message of `anyhow::bail!("invalid otp, expected {otp} got {received_otp}")`. -/
def invalidOtpMsg (otp got : List Char) : String :=
  "invalid otp, expected " ++ String.mk otp ++ " got " ++ String.mk got

/-- `worker.rs:125-129`: `received_otp = str::from_utf8(..)?.trim();
if received_otp != otp { bail!("invalid otp, ...") }`. -/
def validateOtp (otp received : List Char) : Except String Unit :=
  let receivedOtp := rustTrim received
  if receivedOtp ≠ otp then Except.error (invalidOtpMsg otp receivedOtp) else Except.ok ()

/-! ## The retrying primitive (`src/eventually.rs`)

Real time is modelled by an explicit clock (in arbitrary units): each
attempt is given as its outcome paired with its duration; `sleep`
advances the clock by `sleepBetween`.  The list of attempt outcomes is
the trace of `attempt()` calls; running past the end of the trace
yields `none` (the source loop would keep calling `attempt`). -/

inductive EventuallyResult (T E : Type) where
  | ok (t : T)
  | tempErr (e : E)
  | permErr (e : E)
deriving DecidableEq, Repr

/-- Log lines emitted by `eventually`. -/
inductive EvLog (E : Type) where
  | attemptFailed (n : Nat) (e : E)
  | givingUp
deriving DecidableEq, Repr

inductive LogLevel where
  | debug
  | error
deriving DecidableEq, Repr

/-- `log::debug!("Attempt {n} failed: ...")` is debug level;
`log::error!("Giving up")` is error level. -/
def EvLog.level {E : Type} : EvLog E → LogLevel
  | .attemptFailed _ _ => .debug
  | .givingUp => .error

/-- The attempt number of a failure log line, if it is one. -/
def EvLog.attemptNo {E : Type} : EvLog E → Option Nat
  | .attemptFailed n _ => some n
  | .givingUp => none

/-- The loop body of `eventually` (`eventually.rs:22-38`), from clock
`now`, with next attempt number `attemptNo`, against absolute
`deadline`.  Returns the result together with the log lines emitted. -/
def eventuallyFrom {T E : Type} (sleepBetween deadline : Nat) :
    Nat → Nat → List (EventuallyResult T E × Nat) → Option (Except E T × List (EvLog E))
  | _, _, [] => none
  | now, attemptNo, (r, dur) :: rest =>
    let afterAttempt := now + dur
    match r with
    | .ok t => some (Except.ok t, [])
    | .permErr e => some (Except.error e, [])
    | .tempErr e =>
      if afterAttempt + sleepBetween > deadline then
        some (Except.error e, [EvLog.attemptFailed attemptNo e, EvLog.givingUp])
      else
        match eventuallyFrom sleepBetween deadline (afterAttempt + sleepBetween) (attemptNo + 1) rest with
        | none => none
        | some (res, logs) => some (res, EvLog.attemptFailed attemptNo e :: logs)

/-- `eventually(sleep_between, total_timeout, attempt)`: the deadline is
`now + total_timeout` computed on entry and the first attempt is
numbered 1 (`attempt_no` starts at 0 and is incremented before each
attempt). -/
def eventually {T E : Type} (sleepBetween totalTimeout : Nat) (start : Nat)
    (attempts : List (EventuallyResult T E × Nat)) : Option (Except E T × List (EvLog E)) :=
  eventuallyFrom sleepBetween (start + totalTimeout) start 1 attempts

/-! ## Foreground runner exit-code mapping (`src/cli.rs` lines 233-247) -/

/-- The mapping in `run_user_command` of the child `ExitStatus`:
`Some(code) => ExitCode::from(code as u8)`, `None => bail!("command did
not exit")`.  `code as u8` keeps the low 8 bits of the `i32`. -/
def runUserCommandExit (code : Option Int) : Except String Nat :=
  match code with
  | some c => Except.ok (c % 256).toNat
  | none => Except.error "command did not exit"

/-- `main.rs:97-100`: an error bubbling out of the selected mode is
logged and turned into `ExitCode::FAILURE` (= 1). -/
def cliExitCode (r : Except String Nat) : Nat :=
  match r with
  | .ok c => c
  | .error _ => 1

/-! ## SHA-256 (`src/docker_context.rs` lines 104-110)

`fn sha256(x: &[u8]) -> String` delegates to the `sha2` crate and
`hex::encode`.  The algorithm (FIPS 180-4) is embedded here over `Nat`
with explicit reduction mod 2^32; bytes are `Nat` values < 256. -/

/-- Reduce to a 32-bit word. -/
def w32 (n : Nat) : Nat := n % 4294967296

/-- 32-bit right rotation. -/
def rotr32 (x n : Nat) : Nat := w32 ((x >>> n) + ((x <<< (32 - n)) % 4294967296))

/-- SHA-256 initial hash value. -/
def sha256H0 : Nat × Nat × Nat × Nat × Nat × Nat × Nat × Nat :=
  (1779033703, 3144134277, 1013904242, 2773480762, 1359893119, 2600822924, 528734635, 1541459225)

/-- SHA-256 round constants. -/
def sha256K : List Nat :=
  [1116352408, 1899447441, 3049323471, 3921009573,
   961987163, 1508970993, 2453635748, 2870763221,
   3624381080, 310598401, 607225278, 1426881987,
   1925078388, 2162078206, 2614888103, 3248222580,
   3835390401, 4022224774, 264347078, 604807628,
   770255983, 1249150122, 1555081692, 1996064986,
   2554220882, 2821834349, 2952996808, 3210313671,
   3336571891, 3584528711, 113926993, 338241895,
   666307205, 773529912, 1294757372, 1396182291,
   1695183700, 1986661051, 2177026350, 2456956037,
   2730485921, 2820302411, 3259730800, 3345764771,
   3516065817, 3600352804, 4094571909, 275423344,
   430227734, 506948616, 659060556, 883997877,
   958139571, 1322822218, 1537002063, 1747873779,
   1955562222, 2024104815, 2227730452, 2361852424,
   2428436474, 2756734187, 3204031479, 3329325298]

/-- Big-endian bytes of a 64-bit value. -/
def be64 (n : Nat) : List Nat :=
  [n / 2^56 % 256, n / 2^48 % 256, n / 2^40 % 256, n / 2^32 % 256,
   n / 2^24 % 256, n / 2^16 % 256, n / 2^8 % 256, n % 256]

/-- Big-endian bytes of a 32-bit word. -/
def be32 (n : Nat) : List Nat :=
  [n / 2^24 % 256, n / 2^16 % 256, n / 2^8 % 256, n % 256]

/-- SHA-256 padding: append 0x80, zeros to 56 mod 64, then the bit
length as 64-bit big-endian. -/
def sha256pad (msg : List Nat) : List Nat :=
  msg ++ [0x80] ++ List.replicate ((119 - msg.length % 64) % 64) 0 ++ be64 (8 * msg.length)

/-- The 16 big-endian 32-bit words of one 64-byte block. -/
def blockWords (block : List Nat) : List Nat :=
  (List.range 16).map fun i =>
    (block.getD (4 * i) 0) * 2^24 + (block.getD (4 * i + 1) 0) * 2^16 +
    (block.getD (4 * i + 2) 0) * 2^8 + block.getD (4 * i + 3) 0

/-- Message-schedule extension of the 16 block words to 64. -/
def msgSchedule (w16 : List Nat) : List Nat :=
  (List.range 48).foldl
    (fun w _ =>
      let n := w.length
      let s0 :=
        (rotr32 (w.getD (n - 15) 0) 7) ^^^ (rotr32 (w.getD (n - 15) 0) 18) ^^^ ((w.getD (n - 15) 0) >>> 3)
      let s1 :=
        (rotr32 (w.getD (n - 2) 0) 17) ^^^ (rotr32 (w.getD (n - 2) 0) 19) ^^^ ((w.getD (n - 2) 0) >>> 10)
      w ++ [w32 (w.getD (n - 16) 0 + s0 + w.getD (n - 7) 0 + s1)])
    w16

/-- One SHA-256 compression round. -/
def sha256Round (st : Nat × Nat × Nat × Nat × Nat × Nat × Nat × Nat) (kw : Nat × Nat) :
    Nat × Nat × Nat × Nat × Nat × Nat × Nat × Nat :=
  let (a, b, c, d, e, f, g, h) := st
  let (k, w) := kw
  let S1 := (rotr32 e 6) ^^^ (rotr32 e 11) ^^^ (rotr32 e 25)
  let ch := (e &&& f) ^^^ ((4294967295 - e) &&& g)
  let temp1 := w32 (h + S1 + ch + k + w)
  let S0 := (rotr32 a 2) ^^^ (rotr32 a 13) ^^^ (rotr32 a 22)
  let maj := (a &&& b) ^^^ (a &&& c) ^^^ (b &&& c)
  let temp2 := w32 (S0 + maj)
  (w32 (temp1 + temp2), a, b, c, w32 (d + temp1), e, f, g)

/-- Process one 64-byte block: 64 rounds then add to the chaining value. -/
def sha256Block (hv : Nat × Nat × Nat × Nat × Nat × Nat × Nat × Nat) (block : List Nat) :
    Nat × Nat × Nat × Nat × Nat × Nat × Nat × Nat :=
  let w := msgSchedule (blockWords block)
  let (a, b, c, d, e, f, g, h) := (sha256K.zip w).foldl sha256Round hv
  let (h0, h1, h2, h3, h4, h5, h6, h7) := hv
  (w32 (h0 + a), w32 (h1 + b), w32 (h2 + c), w32 (h3 + d),
   w32 (h4 + e), w32 (h5 + f), w32 (h6 + g), w32 (h7 + h))

/-- The big-endian byte emission of the final 8-word hash value. -/
def tupleBytes (t : Nat × Nat × Nat × Nat × Nat × Nat × Nat × Nat) : List Nat :=
  be32 t.1 ++ be32 t.2.1 ++ be32 t.2.2.1 ++ be32 t.2.2.2.1 ++
  be32 t.2.2.2.2.1 ++ be32 t.2.2.2.2.2.1 ++ be32 t.2.2.2.2.2.2.1 ++ be32 t.2.2.2.2.2.2.2

/-- The SHA-256 digest (32 bytes) of a byte string. -/
def sha256 (msg : List Nat) : List Nat :=
  let padded := sha256pad msg
  let blocks := (List.range (padded.length / 64)).map fun i => (padded.drop (64 * i)).take 64
  tupleBytes (blocks.foldl sha256Block sha256H0)

/-- The digit alphabet of `hex::encode` (lowercase). -/
def hexDigit (n : Nat) : Char := "0123456789abcdef".data.getD n '0'

/-- `hex::encode`: two lowercase hex digits per byte. -/
def hexEncode (bytes : List Nat) : String :=
  String.mk (bytes.flatMap fun b => [hexDigit (b / 16 % 16), hexDigit (b % 16)])

/-- UTF-8 encoding of one scalar value. -/
def charUtf8 (c : Char) : List Nat :=
  let n := c.toNat
  if n < 0x80 then [n]
  else if n < 0x800 then [0xc0 + n / 64, 0x80 + n % 64]
  else if n < 0x10000 then [0xe0 + n / 4096, 0x80 + n / 64 % 64, 0x80 + n % 64]
  else [0xf0 + n / 262144, 0x80 + n / 4096 % 64, 0x80 + n / 64 % 64, 0x80 + n % 64]

/-- UTF-8 bytes of a string (Rust `str::as_bytes`). -/
def utf8Bytes (s : String) : List Nat := s.data.flatMap charUtf8

/-- `docker_context.rs:104-110` composed with `name.as_bytes()`:
the lowercase hex SHA-256 digest of the UTF-8 bytes of a string. -/
def sha256hex (s : String) : String := hexEncode (sha256 (utf8Bytes s))

/-! ## Filesystem model

Paths are component lists; a filesystem is the list of existing entries
(directories and files).  `fs::remove_dir_all` removes an entry and
everything below it, and fails when the entry does not exist;
`fs::create_dir_all` creates an entry and all its ancestors. -/

abbrev Path := List String
abbrev FS := List Path

def addPath (p : Path) (fs : FS) : FS := if p ∈ fs then fs else p :: fs

def nonemptyPrefixes (p : Path) : List Path := (List.range p.length).map fun i => p.take (i + 1)

def createDirAll (dir : Path) (fs : FS) : FS :=
  (nonemptyPrefixes dir).foldl (fun acc q => addPath q acc) fs

def removeDirAll (dir : Path) (fs : FS) : Except String FS :=
  if dir ∈ fs then Except.ok (fs.filter fun p => !(dir.isPrefixOf p))
  else Except.error "No such file or directory"

/-- A filesystem is well formed when it is closed under nonempty
ancestors: whatever exists has all its parent directories existing
(stated over `take` so it is decidable on concrete filesystems). -/
def wellFormedFS (fs : FS) : Prop :=
  ∀ p ∈ fs, ∀ i, i < p.length → 0 < i → p.take i ∈ fs

/-! ## Docker Context Artifact (`src/docker_context.rs`) -/

/-- The `meta_json` value built by `DockerContext::new`
(`docker_context.rs:27-36`): one endpoint named `docker`, host
`tcp://<ip>:2376`, TLS verification enabled. -/
structure MetaJson where
  name : String
  host : String
  skipTLSVerify : Bool
deriving DecidableEq, Repr

def metaJsonFor (name ip : String) : MetaJson :=
  { name := name, host := "tcp://" ++ ip ++ ":2376", skipTLSVerify := false }

/-- `home_dir.join(".docker/contexts/meta").join(&name_hash)`. -/
def metaDirOf (home : Path) (name : String) : Path :=
  home ++ [".docker", "contexts", "meta", sha256hex name]

/-- `home_dir.join(".docker/contexts/tls").join(&name_hash)`. -/
def tlsDirOf (home : Path) (name : String) : Path :=
  home ++ [".docker", "contexts", "tls", sha256hex name]

structure DockerContextState where
  name : String
  metaDir : Path
  tlsDir : Path
deriving DecidableEq, Repr

/-- `DockerContext::new` (`docker_context.rs:17-51`): locate home,
hash the context name, fail if the meta directory already exists, else
create both directories and write `meta.json` plus the three TLS
files.  The filesystem is threaded explicitly; on the error paths it is
returned unchanged because the source errors before any write. -/
def dockerContextNew (home : Option Path) (fs : FS) (name : String) :
    FS × Except String DockerContextState :=
  match home with
  | none => (fs, Except.error "cannot locate home dir")
  | some home =>
    let nameHash := sha256hex name
    let metaDir := home ++ [".docker", "contexts", "meta", nameHash]
    let tlsDir := home ++ [".docker", "contexts", "tls", nameHash]
    if metaDir ∈ fs then
      (fs, Except.error ("Docker context \x27" ++ name ++ "\x27 already exists"))
    else
      let fs1 := createDirAll metaDir fs
      let fs2 := createDirAll (tlsDir ++ ["docker"]) fs1
      let fs3 := addPath (metaDir ++ ["meta.json"]) fs2
      let fs4 := addPath (tlsDir ++ ["docker", "ca.pem"]) fs3
      let fs5 := addPath (tlsDir ++ ["docker", "cert.pem"]) fs4
      let fs6 := addPath (tlsDir ++ ["docker", "key.pem"]) fs5
      (fs6, Except.ok { name := name, metaDir := metaDir, tlsDir := tlsDir })

/-- `impl Drop for DockerContext` (`docker_context.rs:92-102`): remove
the meta directory, then the tls directory; each failure is logged
(with its `context` string) and not propagated — the function is total
and returns the new filesystem plus the log lines. -/
def removeLogging (what : String) (dir : Path) (fs : FS) : FS × List String :=
  match removeDirAll dir fs with
  | .ok fs' => (fs', [])
  | .error e => (fs, ["deleting docker context " ++ what ++ " dir: " ++ e])

def dropDockerContext (ctx : DockerContextState) (fs : FS) : FS × List String :=
  let step1 := removeLogging "meta" ctx.metaDir fs
  let step2 := removeLogging "tls" ctx.tlsDir step1.1
  (step2.1, step1.2 ++ step2.2)

/-- `Poll` of the Rust `Future` trait. -/
inductive PollResult (α : Type) where
  | ready (a : α)
  | pending
deriving DecidableEq, Repr

/-- `impl Future for DockerContext` (`docker_context.rs:78-90`): if the
keepalive handle is resolved yield its result, else if the dockerd
handle is resolved yield its, else pending. -/
def dockerContextPoll (keepalive dockerd : Option (Except String Unit)) :
    PollResult (Except String Unit) :=
  match keepalive with
  | some r => .ready r
  | none =>
    match dockerd with
    | some r => .ready r
    | none => .pending

/-- Outcome of `DockerContext::wrap`: either a returned result, or the
`unreachable!("should not complete cleanly")` panic. -/
inductive WrapOutcome (α : Type) where
  | result (r : Except String α)
  | unreachableClean

/-- `DockerContext::wrap` (`docker_context.rs:60-75`) as a function of
which arm of the `select!` fired first: `inl` is the resolution of the
context itself, `inr` the result of the wrapped task. -/
def dockerContextWrap {α : Type} (first : Except String Unit ⊕ Except String α) : WrapOutcome α :=
  match first with
  | .inl (.ok ()) => .unreachableClean
  | .inl (.error e) =>
    .result (.error ("docker context failed before task could be completed: " ++ e))
  | .inr r => .result r

/-- `result.expect_err("should not complete cleanly")` as used by the
consumers in `cli.rs:87` and `cli.rs:206`: `none` models the panic on a
clean completion. -/
def expectErrCleanCompletion {α : Type} (r : Except String α) : Option String :=
  match r with
  | .error e => some e
  | .ok _ => none

/-! ## Step Progress (`src/steps.rs`)

The process-global `CURRENT_STEP` chain of `Step { parent, number,
total }` is modelled as a stack of `(number, total)` pairs.
`StepHandle::new::<Preceding, Remaining>` pushes `(Preceding+1,
Preceding+1+Remaining)`; `start` has `Preceding = ()` so it pushes
`(1, 1+Remaining)`; `next` drops the current handle (popping) and pushes
the sibling `(number+1, total)`; `end` pops.  Popping an empty stack is
the `expect("a current step")` panic of the source, modelled as `none`. -/

inductive StepOp where
  | start (remaining : Nat)
  | next
  | stepEnd
deriving DecidableEq, Repr

def runStepOp : StepOp → List (Nat × Nat) → Option (List (Nat × Nat))
  | .start rem, st => some ((1, 1 + rem) :: st)
  | .next, [] => none
  | .next, (n, t) :: st => some ((n + 1, t) :: st)
  | .stepEnd, [] => none
  | .stepEnd, _ :: st => some st

def runStepOps (ops : List StepOp) (st : List (Nat × Nat)) : Option (List (Nat × Nat)) :=
  ops.foldlM (fun s op => runStepOp op s) st

/-- Balanced call sequences, as enforced by the `StepHandle` types:
`Bal false ops` — `ops` is a sequence of complete `start ... end`
blocks; `Bal true ops` — `ops` is the inside of one block: complete
blocks separated by `next` calls. -/
inductive Bal : Bool → List StepOp → Prop where
  | nil : Bal false []
  | block (rem : Nat) (inner rest : List StepOp) :
      Bal true inner → Bal false rest →
      Bal false (StepOp.start rem :: inner ++ StepOp.stepEnd :: rest)
  | base (b : List StepOp) : Bal false b → Bal true b
  | step (b inner : List StepOp) :
      Bal false b → Bal true inner → Bal true (b ++ StepOp.next :: inner)

/-! ## Bring-up: dockerd activity and readiness wait (`src/worker.rs`) -/

/-- The remote command executed by the `dockerd` activity
(`worker.rs:204-234`). -/
def dockerdCommand : String :=
  "#!/bin/bash\n" ++
  "set -eu -o pipefail\n" ++
  "\n" ++
  "echo \"Installing docker...\"\n" ++
  "cd /tmp\n" ++
  "# TODO: multiarch\n" ++
  "curl -fsSL -O https://download.docker.com/linux/static/stable/aarch64/docker-27.1.2.tgz\n" ++
  "tar xzf docker-27.1.2.tgz\n" ++
  "mv docker/* /usr/local/bin\n" ++
  "\n" ++
  "echo \"Configuring dockerd...\"\n" ++
  "\n" ++
  "echo \"Starting dockerd...\"\n" ++
  "exec dockerd -H tcp://0.0.0.0:2375\n"

/-- The port probed while waiting for port 22
(`TcpStream::connect((ip, 22))`, `worker.rs:84`). -/
def sshProbePort : Nat := 22

/-- The port probed while waiting for docker
(`TcpStream::connect((ip, 2375))`, `worker.rs:148`). -/
def dockerProbePort : Nat := 2375

/-- Outcome of one `timeout(3s, TcpStream::connect(..))`: connected
after `dur` seconds, failed after `dur` seconds (`dur ≤ 3`), or timed
out (3 seconds). -/
inductive ConnectAttempt where
  | success (dur : Nat)
  | failed (dur : Nat)
  | timedOut
deriving DecidableEq, Repr

/-- The hand-rolled connect loop shared by the port-22 wait
(`worker.rs:79-95`) and the docker readiness wait (`worker.rs:141-161`):
check the deadline, attempt, sleep 1 s between attempts.  Returns the
clock value at success. -/
def connectLoopFrom (errMsg : String) (deadline : Nat) :
    Nat → List ConnectAttempt → Option (Except String Nat)
  | now, [] => if now > deadline then some (Except.error errMsg) else none
  | now, a :: rest =>
    if now > deadline then some (Except.error errMsg)
    else
      match a with
      | .success dur => some (Except.ok (now + dur))
      | .failed dur => connectLoopFrom errMsg deadline (now + dur + 1) rest
      | .timedOut => connectLoopFrom errMsg deadline (now + 3 + 1) rest

/-- `worker.rs:78-95`: wait for port 22, 60 s deadline from entry. -/
def waitForSsh (start : Nat) (attempts : List ConnectAttempt) : Option (Except String Nat) :=
  connectLoopFrom "Could not open tcp stream in the deadline" (start + 60) start attempts

/-- `worker.rs:141-161`: wait for the docker port, 60 s deadline from
entry. -/
def waitForDocker (start : Nat) (attempts : List ConnectAttempt) : Option (Except String Nat) :=
  connectLoopFrom "Could not connect to docker in the deadline" (start + 60) start attempts

/-- `anyhow` context wrapping applied to the background jobs
(`worker.rs:133-134`): `keepalive(..).map(|r| r.context("keepalive"))`. -/
def keepaliveJobResult (r : Except String Unit) : Except String Unit :=
  match r with
  | .error e => .error ("keepalive: " ++ e)
  | .ok () => .ok ()

def dockerdJobResult (r : Except String Unit) : Except String Unit :=
  match r with
  | .error e => .error ("dockerd: " ++ e)
  | .ok () => .ok ()

/-- Which arm of the `tokio::select!` at `worker.rs:163-172` fired
first: a background job (keepalive or dockerd) completing, or the
readiness wait finishing. -/
inductive BringupRaceFirst where
  | bg (r : Except String Unit)
  | ready (r : Except String Unit)

/-- The select body: a background-job error fails the bring-up with
that error; a clean background completion is the `unreachable!()` panic
(modelled as `none`); otherwise the readiness result decides. -/
def bringupRace : BringupRaceFirst → Option (Except String Unit)
  | .bg (.error e) => some (.error e)
  | .bg (.ok ()) => none
  | .ready r => some r

/-- Substring test used to state facts about command strings. -/
def hasSubstr (hay needle : String) : Bool :=
  (List.range (hay.data.length + 1)).any fun i => needle.data.isPrefixOf (hay.data.drop i)

/-!
# Theorems
-/

/-! ## Helper lemmas -/

theorem dropWhile_eq_self_of_none {α : Type} (p : α → Bool) (l : List α)
    (h : ∀ c ∈ l, p c = false) : l.dropWhile p = l := by
  cases l with
  | nil => rfl
  | cons a t => simp [List.dropWhile_cons, h a (List.mem_cons_self a t)]

theorem rustTrim_eq_self (l : List Char) (h : ∀ c ∈ l, c.isWhitespace = false) :
    rustTrim l = l := by
  unfold rustTrim
  rw [dropWhile_eq_self_of_none _ l h]
  rw [List.rdropWhile]
  rw [dropWhile_eq_self_of_none _ l.reverse (fun c hc => h c (List.mem_reverse.mp hc))]
  exact List.reverse_reverse l

theorem rustTrim_sublist (l : List Char) : (rustTrim l).Sublist l := by
  unfold rustTrim
  exact ( List.rdropWhile_prefix _ _).sublist.trans (List.dropWhile_suffix _).sublist

theorem rustTrim_eq_of_length (l : List Char) (h : (rustTrim l).length = l.length) :
    rustTrim l = l :=
  (rustTrim_sublist l).eq_of_length h

theorem isWhitespace_false_of_isAlphanum (c : Char) (h : c.isAlphanum = true) :
    c.isWhitespace = false := by
  by_contra hw
  rw [Bool.not_eq_false, Char.isWhitespace] at hw
  simp only [Bool.or_eq_true, decide_eq_true_eq] at hw
  rcases hw with (((h1 | h1) | h1) | h1) <;> subst h1 <;> exact absurd h (by decide)

/-! ## Claim theorems -/

/-- C1: the bootstrap-token validation after SSH authentication succeeds
exactly when the (trimmed) token read from `/fleeting/otp` equals the
generated one; in particular it accepts the generated token itself (a
20-character alphanumeric string contains no whitespace), and for any
two distinct same-length tokens, generating `a` but receiving `b` fails
with the "invalid otp" error. -/
theorem otp_validation :
    (∀ a b : List Char, validateOtp a b = Except.ok () ↔ rustTrim b = a) ∧
    (∀ a : List Char, (∀ c ∈ a, c.isAlphanum = true) → validateOtp a a = Except.ok ()) ∧
    (∀ a b : List Char, a.length = b.length → a ≠ b →
      validateOtp a b = Except.error (invalidOtpMsg a (rustTrim b))) := by
  refine ⟨fun a b => ?_, fun a h => ?_, fun a b hlen hne => ?_⟩
  · unfold validateOtp
    by_cases h : rustTrim b = a <;> simp [h]
  · have htrim : rustTrim a = a :=
      rustTrim_eq_self a fun c hc => isWhitespace_false_of_isAlphanum c (h c hc)
    unfold validateOtp
    simp [htrim]
  · have h : rustTrim b ≠ a := by
      intro heq
      have hlen' : (rustTrim b).length = b.length := by rw [heq, hlen]
      exact hne ((heq.symm.trans (rustTrim_eq_of_length b hlen')).symm ▸ rfl)
    unfold validateOtp
    simp [h]

/-- C1 witness: the concrete 20-character tokens `aaaaaaaaaaaaaaaaaaaa`
and `aaaaaaaaaaaaaaaaaaab` differ, and validation rejects the second
with the "invalid otp" error; validation accepts the generated token. -/
theorem otp_validation_witness :
    validateOtp "aaaaaaaaaaaaaaaaaaaa".data "aaaaaaaaaaaaaaaaaaab".data =
      Except.error (invalidOtpMsg "aaaaaaaaaaaaaaaaaaaa".data
        (rustTrim "aaaaaaaaaaaaaaaaaaab".data)) ∧
    validateOtp "aaaaaaaaaaaaaaaaaaaa".data "aaaaaaaaaaaaaaaaaaaa".data = Except.ok () :=
  ⟨otp_validation.2.2 _ _ (by decide) (by decide),
   otp_validation.2.1 _ (by decide)⟩

/-- C4 counterexample: the claim "the keepalive writer period is
strictly less than one third of the remote keepalive timeout" is false
for the source constants: `3 * 5 < 15` does not hold — the interval is
exactly one third of the timeout. -/
theorem keepalive_strict_third_counterexample :
    ¬ (3 * KEEPALIVE_INTERVAL < KEEPALIVE_TIMEOUT) := by decide

/-- C4 (amended): the local keepalive interval is 5 seconds and the
remote keepalive timeout is 15 seconds; the writer period is at most
(in fact exactly) one third of the remote timeout, and strictly less
than the timeout itself. -/
theorem keepalive_constants :
    KEEPALIVE_INTERVAL = 5 ∧ KEEPALIVE_TIMEOUT = 15 ∧
    3 * KEEPALIVE_INTERVAL ≤ KEEPALIVE_TIMEOUT ∧
    KEEPALIVE_INTERVAL < KEEPALIVE_TIMEOUT := by decide

/-- C5 counterexample: the dockerd activity starts the daemon on TCP
port 2375 without TLS (`exec dockerd -H tcp://0.0.0.0:2375`; the script
mentions neither `--tlsverify` nor 2376), and the readiness wait probes
port 2375, not 2376. -/
theorem dockerd_port_tls_counterexample :
    hasSubstr dockerdCommand "exec dockerd -H tcp://0.0.0.0:2375" = true ∧
    hasSubstr dockerdCommand "--tlsverify" = false ∧
    hasSubstr dockerdCommand "2376" = false ∧
    dockerProbePort = 2375 ∧ dockerProbePort ≠ 2376 := by decide

/-- C5 (amended): the dockerd activity starts the remote daemon
listening on TCP port 2375 with no TLS flags, and the readiness wait
probes TCP port 2375 with a 1 s delay between attempts, a 60 s
deadline and 3 s per attempt, racing against the background activities:
if the keepalive activity fails before the port becomes reachable, the
whole bring-up fails with the keepalive error. -/
theorem dockerd_readiness_amended :
    hasSubstr dockerdCommand "exec dockerd -H tcp://0.0.0.0:2375" = true ∧
    dockerProbePort = 2375 ∧
    (∀ start attempts, waitForDocker start attempts =
      connectLoopFrom "Could not connect to docker in the deadline" (start + 60) start attempts) ∧
    (∀ e d now rest, now > d →
      connectLoopFrom e d now rest = some (Except.error e)) ∧
    (∀ e d now dur rest, ¬ now > d →
      connectLoopFrom e d now (ConnectAttempt.failed dur :: rest) =
        connectLoopFrom e d (now + dur + 1) rest) ∧
    (∀ e d now rest, ¬ now > d →
      connectLoopFrom e d now (ConnectAttempt.timedOut :: rest) =
        connectLoopFrom e d (now + 3 + 1) rest) ∧
    (∀ e d now dur rest, ¬ now > d →
      connectLoopFrom e d now (ConnectAttempt.success dur :: rest) =
        some (Except.ok (now + dur))) ∧
    (∀ e, bringupRace (BringupRaceFirst.bg (keepaliveJobResult (Except.error e))) =
      some (Except.error ("keepalive: " ++ e))) := by
  refine ⟨by decide, rfl, fun start attempts => rfl, ?_, ?_, ?_, ?_, fun e => rfl⟩
  · intro e d now rest h
    cases rest <;> simp [connectLoopFrom, h]
  · intro e d now dur rest h
    simp [connectLoopFrom, h]
  · intro e d now rest h
    simp [connectLoopFrom, h]
  · intro e d now dur rest h
    simp [connectLoopFrom, h]

/-- C5 witness: with the deadline already passed the docker wait fails
with the deadline error, and a keepalive failure first makes the
bring-up fail with the keepalive error. -/
theorem dockerd_readiness_amended_witness :
    connectLoopFrom "Could not connect to docker in the deadline" 60 61 [] =
      some (Except.error "Could not connect to docker in the deadline") ∧
    bringupRace (BringupRaceFirst.bg (keepaliveJobResult (Except.error "boom"))) =
      some (Except.error ("keepalive: " ++ "boom")) :=
  ⟨dockerd_readiness_amended.2.2.2.1 _ 60 61 [] (by decide),
   dockerd_readiness_amended.2.2.2.2.2.2.2 "boom"⟩

/-- C7: polling an awaited `DockerContext` yields the keepalive result
when resolved, else the dockerd result when resolved, else pending; the
keepalive result wins when both are resolved; and a clean completion is
treated as unreachable by `wrap` and by the consumer calls to `expect_err`,
never yielded as a success. -/
theorem docker_context_poll_priority :
    (∀ r1 r2 : Except String Unit, dockerContextPoll (some r1) (some r2) = PollResult.ready r1) ∧
    (∀ r1 d, dockerContextPoll (some r1) d = PollResult.ready r1) ∧
    (∀ r2 : Except String Unit, dockerContextPoll none (some r2) = PollResult.ready r2) ∧
    dockerContextPoll none none = PollResult.pending ∧
    dockerContextWrap (α := Unit) (Sum.inl (Except.ok ())) = WrapOutcome.unreachableClean ∧
    (∀ r : Except String Unit,
      dockerContextWrap (α := Unit) (Sum.inl (Except.ok ())) ≠ WrapOutcome.result r) ∧
    (∀ e : String, dockerContextWrap (α := Unit) (Sum.inl (Except.error e)) =
      WrapOutcome.result (Except.error
        ("docker context failed before task could be completed: " ++ e))) ∧
    (∀ x : Nat, expectErrCleanCompletion (Except.ok x) = none) := by
  refine ⟨fun r1 r2 => rfl, fun r1 d => rfl, fun r2 => rfl, rfl, rfl, fun r h => ?_,
    fun e => rfl, fun x => rfl⟩
  simp [dockerContextWrap] at h

/-- C7 witness: with both handles resolved as errors, the poll yields
the keepalive error. -/
theorem docker_context_poll_priority_witness :
    dockerContextPoll (some (Except.error "keepalive died"))
      (some (Except.error "dockerd died")) = PollResult.ready (Except.error "keepalive died") :=
  docker_context_poll_priority.1 _ _

/-- C10: in foreground mode a user command exiting with code `c` maps
to process exit code `c` reduced modulo 256 (the `as u8` truncation,
congruent to `c` mod 256 and below 256); a command terminating without
an exit code yields the "command did not exit" error, which produces
the failure exit code 1. -/
theorem run_user_command_exit_code :
    (∀ c : Int, ∃ k : Nat, runUserCommandExit (some c) = Except.ok k ∧
      k < 256 ∧ (k : Int) % 256 = c % 256) ∧
    runUserCommandExit none = Except.error "command did not exit" ∧
    cliExitCode (runUserCommandExit none) = 1 := by
  refine ⟨fun c => ⟨(c % 256).toNat, rfl, by omega, by omega⟩, rfl, rfl⟩

/-! ## Retrying primitive: helper lemma -/

/-- The failure log lines of a run started at attempt number `n` are
numbered `n, n+1, ...` consecutively. -/
theorem eventuallyFrom_attempt_numbers {T E : Type} (s d : Nat) :
    ∀ (atts : List (EventuallyResult T E × Nat)) (now n : Nat) (res : Except E T)
      (logs : List (EvLog E)),
      eventuallyFrom s d now n atts = some (res, logs) →
      ∃ k, logs.filterMap EvLog.attemptNo = List.range' n k := by
  intro atts
  induction atts with
  | nil => intro now n res logs h; simp [eventuallyFrom] at h
  | cons a rest ih =>
    intro now n res logs h
    obtain ⟨r, dur⟩ := a
    match r with
    | .ok t =>
      simp [eventuallyFrom] at h
      obtain ⟨-, h2⟩ := h
      subst h2
      exact ⟨0, rfl⟩
    | .permErr e =>
      simp [eventuallyFrom] at h
      obtain ⟨-, h2⟩ := h
      subst h2
      exact ⟨0, rfl⟩
    | .tempErr e =>
      rw [eventuallyFrom] at h
      split at h
      · simp at h
        obtain ⟨-, h2⟩ := h
        subst h2
        exact ⟨1, rfl⟩
      · cases heq : eventuallyFrom s d (now + dur + s) (n + 1) rest with
        | none => rw [heq] at h; simp at h
        | some pr =>
          obtain ⟨res', logs'⟩ := pr
          rw [heq] at h
          simp at h
          obtain ⟨k, hk⟩ := ih (now + dur + s) (n + 1) res' logs' heq
          refine ⟨k + 1, ?_⟩
          obtain ⟨-, h2⟩ := h
          subst h2
          simp only [List.filterMap_cons, EvLog.attemptNo, hk]
          rfl

/-- C3: `eventually` returns a success immediately; returns a permanent
error immediately with no further attempts; on a temporary error logs
the failure at debug level and retries after sleeping `sleep_between`
exactly when the wake-up still fits before the deadline (start +
total_timeout), otherwise returns that last temporary error; and the
failure logs number the attempts consecutively from 1. -/
theorem eventually_semantics :
    (∀ (T E : Type) (s tt start : Nat) (atts : List (EventuallyResult T E × Nat)),
      eventually s tt start atts = eventuallyFrom s (start + tt) start 1 atts) ∧
    (∀ (T E : Type) (s d now n dur : Nat) (t : T) (rest : List (EventuallyResult T E × Nat)),
      eventuallyFrom s d now n ((EventuallyResult.ok t, dur) :: rest) =
        some (Except.ok t, [])) ∧
    (∀ (T E : Type) (s d now n dur : Nat) (e : E) (rest : List (EventuallyResult T E × Nat)),
      eventuallyFrom s d now n ((EventuallyResult.permErr e, dur) :: rest) =
        some (Except.error e, [])) ∧
    (∀ (T E : Type) (s d now n dur : Nat) (e : E) (rest : List (EventuallyResult T E × Nat)),
      now + dur + s > d →
      eventuallyFrom s d now n ((EventuallyResult.tempErr e, dur) :: rest) =
        some (Except.error e, [EvLog.attemptFailed n e, EvLog.givingUp])) ∧
    (∀ (T E : Type) (s d now n dur : Nat) (e : E) (rest : List (EventuallyResult T E × Nat)),
      ¬ now + dur + s > d →
      eventuallyFrom s d now n ((EventuallyResult.tempErr e, dur) :: rest) =
        Option.map (fun r => (r.1, EvLog.attemptFailed n e :: r.2))
          (eventuallyFrom s d (now + dur + s) (n + 1) rest)) ∧
    (∀ (E : Type) (n : Nat) (e : E), (EvLog.attemptFailed n e).level = LogLevel.debug) ∧
    (∀ (E : Type), (EvLog.givingUp (E := E)).level = LogLevel.error) ∧
    (∀ (T E : Type) (s tt start : Nat) (atts : List (EventuallyResult T E × Nat))
      (res : Except E T) (logs : List (EvLog E)),
      eventually s tt start atts = some (res, logs) →
      ∃ k, logs.filterMap EvLog.attemptNo = List.range' 1 k) := by
  refine ⟨fun T E s tt start atts => rfl, fun T E s d now n dur t rest => rfl,
    fun T E s d now n dur e rest => rfl, ?_, ?_,
    fun E n e => rfl, fun E => rfl, ?_⟩
  · intro T E s d now n dur e rest h
    rw [eventuallyFrom]
    simp only [if_pos h]
  · intro T E s d now n dur e rest h
    rw [eventuallyFrom]
    simp only [if_neg h]
    cases eventuallyFrom s d (now + dur + s) (n + 1) rest with
    | none => rfl
    | some pr => obtain ⟨res, logs⟩ := pr; rfl
  · intro T E s tt start atts res logs h
    exact eventuallyFrom_attempt_numbers s (start + tt) atts start 1 res logs h

/-- C3 witness: a concrete run — one temporary failure that still fits
the deadline, then a permanent error — retries once, logs attempt 1,
and its failure log is numbered from 1. -/
theorem eventually_semantics_witness :
    eventuallyFrom (T := Nat) (E := String) 1 10 2 3 ((EventuallyResult.tempErr "t", 2) :: [(EventuallyResult.permErr "p", 1)]) =
      Option.map (fun r => (r.1, EvLog.attemptFailed 3 "t" :: r.2))
        (eventuallyFrom 1 10 5 4 [(EventuallyResult.permErr "p", 1)]) ∧
    eventuallyFrom (T := Nat) (E := String) 1 10 8 1 [(EventuallyResult.tempErr "t", 2)] =
      some (Except.error "t", [EvLog.attemptFailed 1 "t", EvLog.givingUp]) ∧
    (∃ k, ([EvLog.attemptFailed 1 "t", EvLog.givingUp].filterMap
      (EvLog.attemptNo (E := String))) = List.range' 1 k) :=
  ⟨eventually_semantics.2.2.2.2.1 Nat String 1 10 2 3 2 "t" _ (by decide),
   eventually_semantics.2.2.2.1 Nat String 1 10 8 1 2 "t" [] (by decide),
   eventually_semantics.2.2.2.2.2.2.2 Nat String 1 2 1
     [(EventuallyResult.tempErr "t", 2)] (Except.error "t")
     [EvLog.attemptFailed 1 "t", EvLog.givingUp] (by rfl)⟩

/-! ## Step Progress: helper lemmas -/

theorem runStepOps_nil (st : List (Nat × Nat)) : runStepOps [] st = some st := rfl

theorem runStepOps_cons (op : StepOp) (ops : List StepOp) (st : List (Nat × Nat)) :
    runStepOps (op :: ops) st = (runStepOp op st).bind (fun s => runStepOps ops s) := by
  rw [runStepOps, List.foldlM_cons]
  cases runStepOp op st with
  | none => rfl
  | some s => rfl

theorem runStepOps_append (a b : List StepOp) :
    ∀ st, runStepOps (a ++ b) st = (runStepOps a st).bind (fun s => runStepOps b s) := by
  induction a with
  | nil => intro st; simp [runStepOps_nil, runStepOps]
  | cons op ops ih =>
    intro st
    rw [List.cons_append, runStepOps_cons, runStepOps_cons]
    cases runStepOp op st with
    | none => rfl
    | some s => simp [ih s]

/-- Joint soundness of balanced sequences: a balanced sequence restores
the stack; an inner sequence only rewrites the number of the top entry. -/
theorem bal_run (fl : Bool) (ops : List StepOp) (h : Bal fl ops) :
    (fl = false → ∀ st, runStepOps ops st = some st) ∧
    (fl = true → ∀ n t st, ∃ m, runStepOps ops ((n, t) :: st) = some ((m, t) :: st)) := by
  induction h with
  | nil => exact ⟨fun _ st => rfl, fun hc => Bool.noConfusion hc⟩
  | block rem inner rest hi hr ihi ihr =>
    refine ⟨fun _ st => ?_, fun hc => Bool.noConfusion hc⟩
    obtain ⟨m, hm⟩ := ihi.2 rfl 1 (1 + rem) st
    rw [runStepOps_append, runStepOps_cons]
    simp only [runStepOp]
    show (runStepOps inner ((1, 1 + rem) :: st)).bind
      (fun s => runStepOps (StepOp.stepEnd :: rest) s) = some st
    rw [hm]
    show runStepOps (StepOp.stepEnd :: rest) ((m, 1 + rem) :: st) = some st
    rw [runStepOps_cons]
    show runStepOps rest st = some st
    exact ihr.1 rfl st
  | base b hb ihb =>
    exact ⟨fun hc => Bool.noConfusion hc, fun _ n t st => ⟨n, ihb.1 rfl ((n, t) :: st)⟩⟩
  | step b inner hb hi ihb ihi =>
    refine ⟨fun hc => Bool.noConfusion hc, fun _ n t st => ?_⟩
    obtain ⟨m, hm⟩ := ihi.2 rfl (n + 1) t st
    refine ⟨m, ?_⟩
    rw [runStepOps_append, ihb.1 rfl ((n, t) :: st)]
    show runStepOps (StepOp.next :: inner) ((n, t) :: st) = some ((m, t) :: st)
    rw [runStepOps_cons]
    show runStepOps inner ((n + 1, t) :: st) = some ((m, t) :: st)
    exact hm

/-- C9: after any balanced sequence of Step Progress calls (`start`
pushes a new phase, `next` pops the current and pushes the sibling
numbered current+1, `end` pops), in any nesting, the process-global
step stack equals the stack that was current before the outermost
`start`. -/
theorem step_stack_balanced_restore (ops : List StepOp) (st : List (Nat × Nat))
    (h : Bal false ops) : runStepOps ops st = some st :=
  (bal_run false ops h).1 rfl st

/-- C9 witness: the balanced sequence
`start; start; end; next; start; end; end` run on the concrete stack
`[(3, 5)]` restores exactly that stack. -/
theorem step_stack_balanced_restore_witness :
    runStepOps [StepOp.start 1, StepOp.start 0, StepOp.stepEnd, StepOp.next,
      StepOp.start 0, StepOp.stepEnd, StepOp.stepEnd] [(3, 5)] = some [(3, 5)] :=
  step_stack_balanced_restore _ _
    (Bal.block 1 [StepOp.start 0, StepOp.stepEnd, StepOp.next, StepOp.start 0, StepOp.stepEnd] []
      (Bal.step [StepOp.start 0, StepOp.stepEnd] [StepOp.start 0, StepOp.stepEnd]
        (Bal.block 0 [] [] (Bal.base [] Bal.nil) Bal.nil)
        (Bal.base [StepOp.start 0, StepOp.stepEnd]
          (Bal.block 0 [] [] (Bal.base [] Bal.nil) Bal.nil)))
      Bal.nil)

/-! ## Filesystem helper lemmas -/

theorem isPrefixOf_iff_exists {α : Type} [DecidableEq α] :
    ∀ (l1 l2 : List α), l1.isPrefixOf l2 = true ↔ ∃ t, l1 ++ t = l2 := by
  intro l1
  induction l1 with
  | nil => intro l2; simp [List.isPrefixOf]
  | cons a as ih =>
    intro l2
    cases l2 with
    | nil => simp [List.isPrefixOf]
    | cons b bs =>
      simp only [List.isPrefixOf, Bool.and_eq_true, beq_iff_eq, ih, List.cons_append,
        List.cons.injEq]
      constructor
      · rintro ⟨rfl, t, rfl⟩; exact ⟨t, rfl, rfl⟩
      · rintro ⟨t, rfl, rfl⟩; exact ⟨rfl, t, rfl⟩

theorem prefixOf_trans {l1 l2 l3 : Path} (h1 : l1.isPrefixOf l2 = true)
    (h2 : l2.isPrefixOf l3 = true) : l1.isPrefixOf l3 = true := by
  rw [isPrefixOf_iff_exists] at h1 h2 ⊢
  obtain ⟨t1, rfl⟩ := h1
  obtain ⟨t2, rfl⟩ := h2
  exact ⟨t1 ++ t2, by rw [List.append_assoc]⟩

theorem mem_of_prefixOf_wf {fs : FS} {p d : Path} (hwf : wellFormedFS fs) (hp : p ∈ fs)
    (hd : d ≠ []) (hpre : d.isPrefixOf p = true) : d ∈ fs := by
  rw [isPrefixOf_iff_exists] at hpre
  obtain ⟨t, rfl⟩ := hpre
  cases t with
  | nil => simpa using hp
  | cons x xs =>
    have htake : (d ++ x :: xs).take d.length = d := List.take_left d (x :: xs)
    have hlen : d.length < (d ++ x :: xs).length := by simp
    have hpos : 0 < d.length := List.length_pos.mpr hd
    have := hwf (d ++ x :: xs) hp d.length hlen hpos
    rwa [htake] at this

theorem not_prefixOf_of_not_mem {fs : FS} {d : Path} (hwf : wellFormedFS fs) (hd : d ≠ [])
    (hnot : d ∉ fs) : ∀ p ∈ fs, d.isPrefixOf p = false := by
  intro p hp
  by_contra hc
  rw [Bool.not_eq_false] at hc
  exact hnot (mem_of_prefixOf_wf hwf hp hd hc)

theorem wellFormedFS_filter_out (fs : FS) (dir : Path) (hwf : wellFormedFS fs) :
    wellFormedFS (fs.filter fun p => !(dir.isPrefixOf p)) := by
  intro p hp i hi hpos
  rw [List.mem_filter] at hp ⊢
  obtain ⟨hpfs, hpb⟩ := hp
  refine ⟨hwf p hpfs i hi hpos, ?_⟩
  by_contra hc
  simp at hc
  have htp : List.take i p <+: p := ⟨p.drop i, List.take_append_drop i p⟩
  have hdp : dir.isPrefixOf p = true := (isPrefixOf_iff_exists _ _).mpr (hc.trans htp)
  rw [hdp] at hpb
  simp at hpb

theorem removeLogging_of_mem (what : String) (dir : Path) (fs : FS) (hmem : dir ∈ fs) :
    removeLogging what dir fs = (fs.filter fun p => !(dir.isPrefixOf p), []) := by
  have hra : removeDirAll dir fs = Except.ok (fs.filter fun p => !(dir.isPrefixOf p)) := by
    unfold removeDirAll; rw [if_pos hmem]
  unfold removeLogging
  rw [hra]

theorem removeLogging_of_not_mem (what : String) (dir : Path) (fs : FS) (hmem : dir ∉ fs) :
    removeLogging what dir fs =
      (fs, ["deleting docker context " ++ what ++ " dir: " ++ "No such file or directory"]) := by
  have hra : removeDirAll dir fs = Except.error "No such file or directory" := by
    unfold removeDirAll; rw [if_neg hmem]
  unfold removeLogging
  rw [hra]

theorem removeLogging_spec (what : String) (dir : Path) (fs : FS) (hwf : wellFormedFS fs)
    (hd : dir ≠ []) :
    (∀ p ∈ (removeLogging what dir fs).1, dir.isPrefixOf p = false) ∧
    wellFormedFS (removeLogging what dir fs).1 ∧
    (∀ p ∈ (removeLogging what dir fs).1, p ∈ fs) ∧
    (dir ∉ fs → removeLogging what dir fs =
      (fs, ["deleting docker context " ++ what ++ " dir: " ++ "No such file or directory"])) := by
  by_cases hmem : dir ∈ fs
  · rw [removeLogging_of_mem what dir fs hmem]
    refine ⟨?_, wellFormedFS_filter_out fs dir hwf, ?_, fun hno => absurd hmem hno⟩
    · intro p hp
      rw [List.mem_filter] at hp
      have := hp.2
      rwa [Bool.not_eq_true'] at this
    · intro p hp
      exact (List.mem_filter.mp hp).1
  · rw [removeLogging_of_not_mem what dir fs hmem]
    exact ⟨not_prefixOf_of_not_mem hwf hd hmem, hwf, fun p hp => hp, fun _ => rfl⟩

/-- C2: when a `DockerContext` is dropped — on normal or abnormal
termination alike — afterwards nothing under its meta directory or its
tls directory remains in the filesystem; a removal failure is logged
with its context string; and errors are never propagated: even with
both removals failing the drop returns normally, with the filesystem
otherwise untouched and both failures logged. -/
theorem docker_context_drop_removes_dirs (ctx : DockerContextState) (fs : FS)
    (hwf : wellFormedFS fs) (hmd : ctx.metaDir ≠ []) (htd : ctx.tlsDir ≠ []) :
    (∀ p ∈ (dropDockerContext ctx fs).1,
      ctx.metaDir.isPrefixOf p = false ∧ ctx.tlsDir.isPrefixOf p = false) ∧
    (ctx.metaDir ∉ fs →
      "deleting docker context meta dir: No such file or directory" ∈
        (dropDockerContext ctx fs).2) ∧
    (ctx.metaDir ∉ fs → ctx.tlsDir ∉ fs →
      dropDockerContext ctx fs =
        (fs, ["deleting docker context meta dir: No such file or directory",
              "deleting docker context tls dir: No such file or directory"])) := by
  have hmsgm : "deleting docker context " ++ "meta" ++ " dir: " ++ "No such file or directory" =
      "deleting docker context meta dir: No such file or directory" := by decide
  have hmsgt : "deleting docker context " ++ "tls" ++ " dir: " ++ "No such file or directory" =
      "deleting docker context tls dir: No such file or directory" := by decide
  obtain ⟨hm1, hm2, hm3, hm4⟩ := removeLogging_spec "meta" ctx.metaDir fs hwf hmd
  obtain ⟨ht1, ht2, ht3, ht4⟩ :=
    removeLogging_spec "tls" ctx.tlsDir (removeLogging "meta" ctx.metaDir fs).1 hm2 htd
  rw [hmsgm] at hm4
  rw [hmsgt] at ht4
  refine ⟨?_, ?_, ?_⟩
  · intro p hp
    have hp1 : p ∈ (removeLogging "tls" ctx.tlsDir (removeLogging "meta" ctx.metaDir fs).1).1 := hp
    have hpm : p ∈ (removeLogging "meta" ctx.metaDir fs).1 := ht3 p hp1
    exact ⟨hm1 p hpm, ht1 p hp1⟩
  · intro hno
    have h1 := hm4 hno
    show _ ∈ (removeLogging "meta" ctx.metaDir fs).2 ++
      (removeLogging "tls" ctx.tlsDir (removeLogging "meta" ctx.metaDir fs).1).2
    rw [h1]
    simp
  · intro hnom hnot
    have h1 := hm4 hnom
    have hnot1 : ctx.tlsDir ∉ (removeLogging "meta" ctx.metaDir fs).1 := by
      rw [h1]; exact hnot
    have h2 := ht4 hnot1
    show ((removeLogging "tls" ctx.tlsDir (removeLogging "meta" ctx.metaDir fs).1).1,
      (removeLogging "meta" ctx.metaDir fs).2 ++
      (removeLogging "tls" ctx.tlsDir (removeLogging "meta" ctx.metaDir fs).1).2) = _
    rw [h2, h1]
    simp

/-- C2 witness: dropping the context whose meta directory is
`home/m` (present, with a file inside) and tls directory `home/t`
(absent) leaves neither directory a prefix of anything on disk. -/
theorem docker_context_drop_removes_dirs_witness :
    (["home", "m"] : Path).isPrefixOf ["home"] = false ∧
    (["home", "t"] : Path).isPrefixOf ["home"] = false :=
  (docker_context_drop_removes_dirs ⟨"n", ["home", "m"], ["home", "t"]⟩
    [["home"], ["home", "m"], ["home", "m", "meta.json"]]
    (by unfold wellFormedFS; decide) (by decide) (by decide)).1 ["home"] (by decide)

/-- C8: `DockerContext::new` fails with the "already exists" error and
leaves the filesystem unchanged exactly when the meta directory for the
context name already exists; the check is on the meta directory only,
so without it the construction succeeds (whether or not the tls
directory pre-exists). -/
theorem docker_context_new_meta_exists (home : Path) (fs : FS) (name : String) :
    (metaDirOf home name ∈ fs →
      dockerContextNew (some home) fs name =
        (fs, Except.error ("Docker context \x27" ++ name ++ "\x27 already exists"))) ∧
    (metaDirOf home name ∉ fs →
      (dockerContextNew (some home) fs name).2 =
        Except.ok ⟨name, metaDirOf home name, tlsDirOf home name⟩) := by
  constructor
  · intro h
    unfold dockerContextNew
    unfold metaDirOf at h
    dsimp only
    rw [if_pos h]
  · intro h
    unfold dockerContextNew
    unfold metaDirOf at h
    dsimp only
    rw [if_neg h]
    rfl

/-- C8 witness: with the meta directory pre-existing the constructor
fails and returns the filesystem unchanged; with only the tls directory
pre-existing it succeeds. -/
theorem docker_context_new_meta_exists_witness :
    dockerContextNew (some ["h"]) [metaDirOf ["h"] "x"] "x" =
      ([metaDirOf ["h"] "x"], Except.error ("Docker context \x27" ++ "x" ++ "\x27 already exists")) ∧
    (dockerContextNew (some ["h"]) [tlsDirOf ["h"] "x"] "x").2 =
      Except.ok ⟨"x", metaDirOf ["h"] "x", tlsDirOf ["h"] "x"⟩ :=
  ⟨(docker_context_new_meta_exists ["h"] [metaDirOf ["h"] "x"] "x").1 (by simp),
   (docker_context_new_meta_exists ["h"] [tlsDirOf ["h"] "x"] "x").2 (by decide)⟩

/-! ## SHA-256 output shape lemmas -/

theorem be32_lt (x : Nat) : ∀ b ∈ be32 x, b < 256 := by
  intro b hb
  simp only [be32, List.mem_cons, List.not_mem_nil, or_false] at hb
  rcases hb with rfl | rfl | rfl | rfl <;> omega

theorem tupleBytes_lt (t : Nat × Nat × Nat × Nat × Nat × Nat × Nat × Nat) :
    ∀ b ∈ tupleBytes t, b < 256 := by
  intro b hb
  simp only [tupleBytes, List.append_assoc, List.mem_append] at hb
  rcases hb with h | h | h | h | h | h | h | h <;> exact be32_lt _ b h

theorem tupleBytes_length (t : Nat × Nat × Nat × Nat × Nat × Nat × Nat × Nat) :
    (tupleBytes t).length = 32 := by
  simp [tupleBytes, be32]

theorem sha256_length (msg : List Nat) : (sha256 msg).length = 32 :=
  tupleBytes_length _

theorem sha256_bytes_lt (msg : List Nat) : ∀ b ∈ sha256 msg, b < 256 :=
  tupleBytes_lt _

theorem hexDigit_mem (n : Nat) (h : n < 16) : hexDigit n ∈ "0123456789abcdef".data := by
  have hall : ∀ m, m < 16 → hexDigit m ∈ "0123456789abcdef".data := by decide
  exact hall n h

theorem hexPairs_length : ∀ l : List Nat,
    (l.flatMap fun b => [hexDigit (b / 16 % 16), hexDigit (b % 16)]).length = 2 * l.length := by
  intro l
  induction l with
  | nil => rfl
  | cons b bs ih =>
    rw [List.flatMap_cons]
    simp only [List.length_append, List.length_cons, List.length_nil, ih]
    omega

theorem hexEncode_length (bytes : List Nat) : (hexEncode bytes).length = 2 * bytes.length := by
  show (String.mk (bytes.flatMap fun b => [hexDigit (b / 16 % 16), hexDigit (b % 16)])).length = _
  show (bytes.flatMap fun b => [hexDigit (b / 16 % 16), hexDigit (b % 16)]).length = _
  exact hexPairs_length bytes

theorem hexEncode_lower (bytes : List Nat) :
    ∀ c ∈ (hexEncode bytes).data, c ∈ "0123456789abcdef".data := by
  intro c hc
  have hc' : c ∈ bytes.flatMap fun b => [hexDigit (b / 16 % 16), hexDigit (b % 16)] := hc
  rw [List.mem_flatMap] at hc'
  obtain ⟨b, _, hcb⟩ := hc'
  simp only [List.mem_cons, List.not_mem_nil, or_false] at hcb
  rcases hcb with rfl | rfl
  · exact hexDigit_mem _ (by omega)
  · exact hexDigit_mem _ (by omega)

/-- C6: the directory name used under `.docker/contexts/meta` and
`.docker/contexts/tls` is exactly the hex encoding of the SHA-256
digest of the UTF-8 bytes of the context name; that encoding is 64
characters, all from the lowercase hex alphabet; and the embedded
SHA-256 agrees with the FIPS 180-4 test vectors for `""` and `"abc"`. -/
theorem context_dir_name_sha256 :
    (∀ (home : Path) (name : String),
      metaDirOf home name =
        home ++ [".docker", "contexts", "meta", hexEncode (sha256 (utf8Bytes name))] ∧
      tlsDirOf home name =
        home ++ [".docker", "contexts", "tls", hexEncode (sha256 (utf8Bytes name))]) ∧
    (∀ name : String, (sha256hex name).length = 64 ∧
      ∀ c ∈ (sha256hex name).data, c ∈ "0123456789abcdef".data) ∧
    sha256hex "" = "e3b0c44298fc1c149afbf4c8996fb92427ae41e4649b934ca495991b7852b855" ∧
    sha256hex "abc" = "ba7816bf8f01cfea414140de5dae2223b00361a396177a9cb410ff61f20015ad" := by
  refine ⟨fun home name => ⟨rfl, rfl⟩, fun name => ⟨?_, hexEncode_lower _⟩, by decide, by decide⟩
  show (hexEncode (sha256 (utf8Bytes name))).length = 64
  rw [hexEncode_length, sha256_length]

/-- C6 witness: the concrete context name `fleeting-1` hashes to a
64-character lowercase-hex directory name. -/
theorem context_dir_name_sha256_witness :
    metaDirOf ["h"] "fleeting-1" =
      ["h"] ++ [".docker", "contexts", "meta", hexEncode (sha256 (utf8Bytes "fleeting-1"))] ∧
    (sha256hex "fleeting-1").length = 64 :=
  ⟨(context_dir_name_sha256.1 ["h"] "fleeting-1").1,
   (context_dir_name_sha256.2.1 "fleeting-1").1⟩

/-- C10 witness: exit code -1 (as an `i32`) maps to a code below 256
congruent to -1 modulo 256 (i.e. 255). -/
theorem run_user_command_exit_code_witness :
    ∃ k : Nat, runUserCommandExit (some (-1)) = Except.ok k ∧
      k < 256 ∧ (k : Int) % 256 = (-1) % 256 :=
  run_user_command_exit_code.1 (-1)

end Fleeting
